import Mathlib

/-!
# Device-authorization flow client (`src/auth/authenticator.go`)

A shallow embedding of `Authenticator.Authenticate`, `requestDeviceFlow` and
`pollForToken`.

Modelling conventions:

* Instants and `time.Duration` values are integers counting nanoseconds.
  `time.Duration` is a signed 64-bit integer, so the product
  `time.Duration(n) * time.Second` wraps around (`secondsToDuration`); the Go
  `int` fields of the JSON records are taken to be 64-bit.  `Time.Add` and
  `Time.After` are exact on the range of values that occur.
* The clock of a run is the reading of the runtime's monotonic clock, which is
  never negative.  `time.Sleep d` returns at once when `d` is not positive.
  Otherwise it ends at the wake-up instant `now + d`, which the runtime
  replaces by the largest timer instant `maxWhen` (2^63 - 1) when the sum
  overflows a signed 64-bit integer (`sleepUntil`).  The statements between
  two clock readings take no time.
* The outside world is an explicit `World`: the reply of the device-code
  endpoint, the reply of the token endpoint to the k-th token request, the time
  each request takes, and the behaviour of `json.Unmarshal` on the two record
  types (library code, taken as a parameter).
* The effects of a run are recorded in a `Run`: the clock, the instants at
  which token requests were issued, and the lines written through `logInfo`.
  `logDebug` is the no-op logger installed by `NewAuthenticator`.
* The `for` loop of `pollForToken` is a function of a fuel argument; a result of
  `none` means the loop is still running when the fuel is used up.  The `Run`
  is returned in every case, so that properties of the trace also cover runs
  that have not returned yet.
-/

namespace MeetingsAsCode

/-! ## Time -/

/-- Wrap-around of an integer to the signed 64-bit range. -/
def wrapInt64 (x : Int) : Int :=
  (x + 9223372036854775808) % 18446744073709551616 - 9223372036854775808

/-- The constant `time.Second`, in nanoseconds. -/
def Second : Int := 1000000000

/-- The expression `time.Duration(n) * time.Second`. -/
def secondsToDuration (n : Int) : Int :=
  wrapInt64 (n * Second)

/-- The pause that a call `time.Sleep d` asks for: `d` when it is positive,
nothing otherwise.  The instant at which the call returns is `sleepUntil`. -/
def requestedPause (d : Int) : Int :=
  if 0 < d then d else 0

/-- The largest instant a runtime timer can be set to (`maxWhen`). -/
def maxWhen : Int := 9223372036854775807

/-- The clock when `time.Sleep d`, called at instant `now`, returns.  A call with
`d` not positive returns at once.  Otherwise the timer is set to `now + d`, and
to `maxWhen` when that sum overflows a signed 64-bit integer. -/
def sleepUntil (now d : Int) : Int :=
  if 0 < d then min (now + d) maxWhen else now

/-! ## Data model -/

/-- The record `DeviceFlowResponse`. -/
structure DeviceFlowResponse where
  DeviceCode : String
  UserCode : String
  VerificationURL : String
  ExpiresIn : Int
  Interval : Int
  deriving DecidableEq

/-- The record `TokenResponse`. -/
structure TokenResponse where
  Scopes : String
  AccessToken : String
  RefreshToken : String
  ExpiresIn : Int
  deriving DecidableEq

/-- The caller's `context.Context`, reduced to its deadline. -/
structure Context where
  deadline : Option Int
  deriving DecidableEq

/-- The errors the flow can return.  `transport`, `readBody` and `unmarshal`
carry the message of the library error that is passed on unchanged. -/
inductive AuthError where
  | transport (msg : String)
  | readBody (msg : String)
  | unmarshal (msg : String)
  | deviceCodeStatus (code : Int)
  | expired
  | tokenStatus (code : Int)
  deriving DecidableEq

/-- The text of each error, as built in the source. -/
def AuthError.message : AuthError → String
  | .transport msg => msg
  | .readBody msg => msg
  | .unmarshal msg => msg
  | .deviceCodeStatus code =>
      "device code request failed with status code " ++ toString code
  | .expired => "authentication request expired"
  | .tokenStatus code => "request failed with status code " ++ toString code

/-- An HTTP response: the status code and the outcome of reading the body. -/
structure Response where
  StatusCode : Int
  Body : Except String String

/-- The environment of one authentication attempt. -/
structure World where
  /-- Outcome of the `http.PostForm` to the device-code endpoint. -/
  deviceEndpoint : Except String Response
  /-- Time taken by the device-code request. -/
  deviceLatency : Nat
  /-- Outcome of the k-th `http.PostForm` to the token endpoint. -/
  tokenEndpoint : Nat → Except String Response
  /-- Time taken by the k-th token request. -/
  tokenLatency : Nat → Nat
  /-- Behaviour of `json.Unmarshal` into a `DeviceFlowResponse`. -/
  unmarshalDeviceFlow : String → Except String DeviceFlowResponse
  /-- Behaviour of `json.Unmarshal` into a `TokenResponse`. -/
  unmarshalToken : String → Except String TokenResponse

/-- The observable state of a run. -/
structure Run where
  /-- Current reading of `time.Now()`. -/
  now : Int
  /-- Instants at which the token requests were issued, oldest first. -/
  tokenRequests : List Int
  /-- Lines written through `logInfo`. -/
  output : List String
  deriving DecidableEq

/-! ## Operations -/

/-- The function `requestDeviceFlow`: one request, no retry. -/
def requestDeviceFlow (_ctx : Context) (w : World) (r : Run) :
    Run × Except AuthError DeviceFlowResponse :=
  let r1 : Run := { r with now := r.now + w.deviceLatency }
  match w.deviceEndpoint with
  | .error e => (r1, .error (.transport e))
  | .ok resp =>
    if resp.StatusCode ≠ 200 then
      (r1, .error (.deviceCodeStatus resp.StatusCode))
    else
      match resp.Body with
      | .error e => (r1, .error (.readBody e))
      | .ok body =>
        match w.unmarshalDeviceFlow body with
        | .error e => (r1, .error (.unmarshal e))
        | .ok deviceFlowResp => (r1, .ok deviceFlowResp)

/-- One pass through the body of the `for` loop of `pollForToken`: the expiry
check, the sleep, the token request and the reading of its reply.  A result of
`none` means the pass falls through to the next iteration. -/
def pollIteration (w : World) (interval expiresAt : Int) (r : Run) :
    Run × Option (Except AuthError TokenResponse) :=
  if r.now > expiresAt then
    (r, some (.error .expired))
  else
    let issued : Int := sleepUntil r.now interval
    let k : Nat := r.tokenRequests.length
    let r1 : Run :=
      { r with now := issued + w.tokenLatency k,
               tokenRequests := r.tokenRequests ++ [issued] }
    match w.tokenEndpoint k with
    | .error e => (r1, some (.error (.transport e)))
    | .ok resp =>
      if resp.StatusCode = 200 then
        match resp.Body with
        | .error e => (r1, some (.error (.readBody e)))
        | .ok body =>
          match w.unmarshalToken body with
          | .error e => (r1, some (.error (.unmarshal e)))
          | .ok tokenResp => (r1, some (.ok tokenResp))
      else if resp.StatusCode ≠ 400 then
        (r1, some (.error (.tokenStatus resp.StatusCode)))
      else
        (r1, none)

/-- The `for` loop of `pollForToken`, one iteration per unit of fuel. -/
def pollLoop (w : World) (interval expiresAt : Int) :
    Nat → Run → Run × Option (Except AuthError TokenResponse)
  | 0, r => (r, none)
  | fuel + 1, r =>
    match pollIteration w interval expiresAt r with
    | (r1, none) => pollLoop w interval expiresAt fuel r1
    | (r1, some res) => (r1, some res)

/-- The function `pollForToken`. -/
def pollForToken (_ctx : Context) (w : World) (deviceFlowResp : DeviceFlowResponse)
    (fuel : Nat) (r : Run) : Run × Option (Except AuthError TokenResponse) :=
  let interval := secondsToDuration deviceFlowResp.Interval
  let expiresAt := r.now + secondsToDuration deviceFlowResp.ExpiresIn
  pollLoop w interval expiresAt fuel r

/-- The sign-in instruction written through `logInfo`. -/
def signInMessage (deviceFlowResp : DeviceFlowResponse) : String :=
  "To sign in, use a web browser to open the page " ++ deviceFlowResp.VerificationURL
    ++ " and enter the code " ++ deviceFlowResp.UserCode ++ "\n"

/-- The function `Authenticate`.  The result is the Go pair of the returned
string and the returned error (`none` for `nil`). -/
def Authenticate (ctx : Context) (w : World) (fuel : Nat) (r : Run) :
    Run × Option (String × Option AuthError) :=
  match requestDeviceFlow ctx w r with
  | (r1, .error err) => (r1, some ("", some err))
  | (r1, .ok deviceFlowResp) =>
    let r2 : Run := { r1 with output := r1.output ++ [signInMessage deviceFlowResp] }
    match pollForToken ctx w deviceFlowResp fuel r2 with
    | (r3, none) => (r3, none)
    | (r3, some (.error err)) => (r3, some ("", some err))
    | (r3, some (.ok tokenResp)) => (r3, some (tokenResp.AccessToken, none))

/-- A run that starts at instant `t` with nothing sent and nothing written. -/
def Run.start (t : Int) : Run :=
  { now := t, tokenRequests := [], output := [] }

/-! ## Auxiliary definitions for the proofs -/

/-- The run after a pass of the loop that sleeps and issues a token request. -/
def pollOnce (w : World) (interval : Int) (r : Run) : Run :=
  { r with now := sleepUntil r.now interval + w.tokenLatency r.tokenRequests.length,
           tokenRequests := r.tokenRequests ++ [sleepUntil r.now interval] }

/-- The run after `n` passes of the loop that each sleep and issue a token request. -/
def pollTimes (w : World) (interval : Int) : Nat → Run → Run
  | 0, r => r
  | n + 1, r => pollTimes w interval n (pollOnce w interval r)

/-- The token endpoint answers HTTP 400 to the k-th token request. -/
def Pending (w : World) (k : Nat) : Prop :=
  ∃ resp, w.tokenEndpoint k = .ok resp ∧ resp.StatusCode = 400

/-! ## Sample sessions and providers -/

/-- A session with the given poll interval and lifetime, both in seconds. -/
def sampleSession (interval expiresIn : Int) : DeviceFlowResponse :=
  { DeviceCode := "device-code", UserCode := "ABCD-EFGH",
    VerificationURL := "https://login.example/device",
    ExpiresIn := expiresIn, Interval := interval }

/-- The token record decoded from a body by the sample decoder. -/
def sampleToken (body : String) : TokenResponse :=
  { Scopes := "Calendars.ReadWrite", AccessToken := body, RefreshToken := "refresh",
    ExpiresIn := 3600 }

/-- A mocked provider: the device-code endpoint answers `deviceStatus` with a
body that decodes to `session`; the token endpoint answers 400 to the first
`pending` requests and `final` to all later ones; requests take no time. -/
def sampleWorld (deviceStatus : Int) (session : DeviceFlowResponse) (pending : Nat)
    (final : Int) : World :=
  { deviceEndpoint := .ok { StatusCode := deviceStatus, Body := .ok "device-body" }
    deviceLatency := 0
    tokenEndpoint := fun k =>
      if k < pending then .ok { StatusCode := 400, Body := .ok "authorization_pending" }
      else .ok { StatusCode := final, Body := .ok "token-body" }
    tokenLatency := fun _ => 0
    unmarshalDeviceFlow := fun _ => .ok session
    unmarshalToken := fun body => .ok (sampleToken body) }

/-- A mocked provider whose token endpoint answers 400 to every request. -/
def alwaysPending (session : DeviceFlowResponse) : World :=
  { deviceEndpoint := .ok { StatusCode := 200, Body := .ok "device-body" }
    deviceLatency := 0
    tokenEndpoint := fun _ => .ok { StatusCode := 400, Body := .ok "authorization_pending" }
    tokenLatency := fun _ => 0
    unmarshalDeviceFlow := fun _ => .ok session
    unmarshalToken := fun body => .ok (sampleToken body) }

/-! ## Theorems -/

theorem requestedPause_nonneg (d : Int) : 0 ≤ requestedPause d := by
  unfold requestedPause; split <;> omega

theorem requestedPause_of_pos {d : Int} (h : 0 < d) : requestedPause d = d := by
  unfold requestedPause; simp [h]

theorem pollIteration_expired (w : World) (interval expiresAt : Int) (r : Run)
    (h : r.now > expiresAt) :
    pollIteration w interval expiresAt r = (r, some (.error .expired)) := by
  simp [pollIteration, h]

theorem pollIteration_run (w : World) (interval expiresAt : Int) (r : Run)
    (h : r.now ≤ expiresAt) :
    (pollIteration w interval expiresAt r).1 = pollOnce w interval r := by
  have h1 : ¬ r.now > expiresAt := by omega
  simp only [pollIteration, h1, if_false, pollOnce]
  split
  · rfl
  · split
    · split
      · rfl
      · split <;> rfl
    · split <;> rfl

theorem pollIteration_pending (w : World) (interval expiresAt : Int) (r : Run)
    (hnow : r.now ≤ expiresAt) (hp : Pending w r.tokenRequests.length) :
    pollIteration w interval expiresAt r = (pollOnce w interval r, none) := by
  obtain ⟨resp, hresp, hs⟩ := hp
  have : ¬ r.now > expiresAt := by omega
  simp [pollIteration, this, hresp, hs, pollOnce]

theorem pollIteration_token (w : World) (interval expiresAt : Int) (r : Run)
    (hnow : r.now ≤ expiresAt) (body : String) (tok : TokenResponse)
    (hresp : w.tokenEndpoint r.tokenRequests.length = .ok ⟨200, .ok body⟩)
    (htok : w.unmarshalToken body = .ok tok) :
    pollIteration w interval expiresAt r = (pollOnce w interval r, some (.ok tok)) := by
  have : ¬ r.now > expiresAt := by omega
  simp [pollIteration, this, hresp, htok, pollOnce]

theorem pollIteration_status (w : World) (interval expiresAt : Int) (r : Run)
    (hnow : r.now ≤ expiresAt) (resp : Response)
    (hresp : w.tokenEndpoint r.tokenRequests.length = .ok resp)
    (h200 : resp.StatusCode ≠ 200) (h400 : resp.StatusCode ≠ 400) :
    pollIteration w interval expiresAt r
      = (pollOnce w interval r, some (.error (.tokenStatus resp.StatusCode))) := by
  have : ¬ r.now > expiresAt := by omega
  simp [pollIteration, this, hresp, h200, h400, pollOnce]

/-- A pass that returns a token has just received a 200 reply whose body decodes to it. -/
theorem pollIteration_ok (w : World) (interval expiresAt : Int) (r r1 : Run)
    (tok : TokenResponse)
    (h : pollIteration w interval expiresAt r = (r1, some (.ok tok))) :
    r1 = pollOnce w interval r ∧
    ∃ body, w.tokenEndpoint r.tokenRequests.length = .ok ⟨200, .ok body⟩ ∧
      w.unmarshalToken body = .ok tok := by
  unfold pollIteration at h
  split at h
  · simp at h
  · simp only at h
    split at h
    · simp at h
    · rename_i resp hresp
      split at h
      · rename_i h200
        split at h
        · simp at h
        · rename_i body hbody
          split at h
          · simp at h
          · rename_i tok2 htok
            simp only [Prod.mk.injEq, Option.some.injEq, Except.ok.injEq] at h
            obtain ⟨h1, h2⟩ := h
            subst h2
            refine ⟨by rw [← h1]; rfl, body, ?_, htok⟩
            rw [hresp]
            cases resp
            simp_all
      · split at h <;> simp at h

theorem pollLoop_succ_none (w : World) (interval expiresAt : Int) (fuel : Nat) (r r1 : Run)
    (h : pollIteration w interval expiresAt r = (r1, none)) :
    pollLoop w interval expiresAt (fuel + 1) r = pollLoop w interval expiresAt fuel r1 := by
  simp [pollLoop, h]

theorem pollLoop_succ_some (w : World) (interval expiresAt : Int) (fuel : Nat) (r r1 : Run)
    (res : Except AuthError TokenResponse)
    (h : pollIteration w interval expiresAt r = (r1, some res)) :
    pollLoop w interval expiresAt (fuel + 1) r = (r1, some res) := by
  simp [pollLoop, h]

theorem sleepUntil_le (now d : Int) : sleepUntil now d ≤ now + requestedPause d := by
  unfold sleepUntil requestedPause
  split
  · exact min_le_left _ _
  · omega

theorem sleepUntil_eq {now d : Int} (hd : 0 < d) (hfit : now + d ≤ maxWhen) :
    sleepUntil now d = now + d := by
  unfold sleepUntil
  rw [if_pos hd]
  exact min_eq_left hfit

theorem sleepUntil_le_maxWhen (now d : Int) (hnow : now ≤ maxWhen) :
    sleepUntil now d ≤ maxWhen := by
  unfold sleepUntil
  split
  · exact min_le_right _ _
  · exact hnow

theorem lt_sleepUntil (now d : Int) (hd : 0 < d) (hnow : now < maxWhen) :
    now < sleepUntil now d := by
  unfold sleepUntil
  rw [if_pos hd]
  exact lt_min (by omega) hnow

@[simp]
theorem pollOnce_length (w : World) (interval : Int) (r : Run) :
    (pollOnce w interval r).tokenRequests.length = r.tokenRequests.length + 1 := by
  simp [pollOnce]

@[simp]
theorem pollTimes_length (w : World) (interval : Int) (n : Nat) (r : Run) :
    (pollTimes w interval n r).tokenRequests.length = r.tokenRequests.length + n := by
  induction n generalizing r with
  | zero => simp [pollTimes]
  | succ n ih => simp [pollTimes, ih]; omega

theorem pollTimes_succ (w : World) (interval : Int) (n : Nat) (r : Run) :
    pollTimes w interval (n + 1) r = pollOnce w interval (pollTimes w interval n r) := by
  induction n generalizing r with
  | zero => simp [pollTimes]
  | succ n ih => rw [pollTimes, ih]; rfl

/-- The clock after `n` polling passes is at most the start plus `n` requested
pauses plus the time taken by the `n` requests. -/
theorem pollTimes_now_le (w : World) (interval : Int) (n : Nat) (r : Run) :
    (pollTimes w interval n r).now
      ≤ r.now + n * requestedPause interval
        + ∑ k in Finset.range n, (w.tokenLatency (r.tokenRequests.length + k) : Int) := by
  induction n with
  | zero => simp [pollTimes]
  | succ n ih =>
    rw [pollTimes_succ, Finset.sum_range_succ]
    simp only [pollOnce, pollTimes_length]
    have h := sleepUntil_le (pollTimes w interval n r).now interval
    push_cast
    linarith

theorem pauses_mono (w : World) (interval : Int) (base : Nat) {m n : Nat} (h : m ≤ n) :
    (m : Int) * requestedPause interval
        + ∑ k in Finset.range m, (w.tokenLatency (base + k) : Int)
      ≤ (n : Int) * requestedPause interval
        + ∑ k in Finset.range n, (w.tokenLatency (base + k) : Int) := by
  induction n with
  | zero =>
    have : m = 0 := by omega
    subst this; exact le_refl _
  | succ n ih =>
    rcases Nat.lt_or_ge m (n + 1) with hlt | hge
    · have h1 := ih (by omega)
      rw [Finset.sum_range_succ]
      have h2 := requestedPause_nonneg interval
      have h3 : (0 : Int) ≤ (w.tokenLatency (base + n) : Int) := by omega
      push_cast
      linarith
    · have : m = n + 1 := by omega
      subst this; exact le_refl _

theorem pollLoop_pending_run (w : World) (interval expiresAt : Int) (fuel n : Nat) (r : Run)
    (hnow : ∀ j, j < n → (pollTimes w interval j r).now ≤ expiresAt)
    (hp : ∀ j, j < n → Pending w (r.tokenRequests.length + j)) :
    pollLoop w interval expiresAt (fuel + n) r
      = pollLoop w interval expiresAt fuel (pollTimes w interval n r) := by
  induction n generalizing r with
  | zero => simp [pollTimes]
  | succ n ih =>
    have h0 : r.now ≤ expiresAt := hnow 0 (by omega)
    have hp0 : Pending w r.tokenRequests.length := by simpa using hp 0 (by omega)
    rw [← Nat.add_assoc, pollLoop_succ_none w interval expiresAt (fuel + n) r _
      (pollIteration_pending w interval expiresAt r h0 hp0), pollTimes]
    apply ih
    · intro j hj
      have := hnow (j + 1) (by omega)
      simpa [pollTimes] using this
    · intro j hj
      have := hp (j + 1) (by omega)
      simpa [Nat.add_assoc, Nat.add_comm 1 j] using this

/-- Once the loop has returned, more fuel does not change the outcome. -/
theorem pollLoop_fuel_succ (w : World) (interval expiresAt : Int) (fuel : Nat) (r : Run)
    (h : (pollLoop w interval expiresAt fuel r).2 ≠ none) :
    pollLoop w interval expiresAt (fuel + 1) r = pollLoop w interval expiresAt fuel r := by
  induction fuel generalizing r with
  | zero => simp [pollLoop] at h
  | succ fuel ih =>
    rcases hit : pollIteration w interval expiresAt r with ⟨r1, _ | res⟩
    · rw [pollLoop_succ_none w interval expiresAt (fuel + 1) r r1 hit,
        pollLoop_succ_none w interval expiresAt fuel r r1 hit]
      apply ih
      rwa [pollLoop_succ_none w interval expiresAt fuel r r1 hit] at h
    · rw [pollLoop_succ_some w interval expiresAt (fuel + 1) r r1 res hit,
        pollLoop_succ_some w interval expiresAt fuel r r1 res hit]

theorem pollLoop_fuel_add (w : World) (interval expiresAt : Int) (fuel m : Nat) (r : Run)
    (h : (pollLoop w interval expiresAt fuel r).2 ≠ none) :
    pollLoop w interval expiresAt (fuel + m) r = pollLoop w interval expiresAt fuel r := by
  induction m with
  | zero => rfl
  | succ m ih =>
    rw [← Nat.add_assoc, pollLoop_fuel_succ _ _ _ _ _ (by rw [ih]; exact h), ih]

theorem pollLoop_fuel_le (w : World) (interval expiresAt : Int) {fuel fuel2 : Nat} (r : Run)
    (hle : fuel ≤ fuel2) (h : (pollLoop w interval expiresAt fuel r).2 ≠ none) :
    pollLoop w interval expiresAt fuel2 r = pollLoop w interval expiresAt fuel r := by
  obtain ⟨m, rfl⟩ := Nat.exists_eq_add_of_le hle
  exact pollLoop_fuel_add w interval expiresAt fuel m r h

/-- The requests added by the loop are each issued at most one requested pause
after the expiry. -/
theorem pollLoop_trace (w : World) (interval expiresAt : Int) (fuel : Nat) (r : Run) :
    ∃ added : List Int,
      (pollLoop w interval expiresAt fuel r).1.tokenRequests = r.tokenRequests ++ added ∧
      ∀ t ∈ added, t ≤ expiresAt + requestedPause interval := by
  induction fuel generalizing r with
  | zero => exact ⟨[], by simp [pollLoop], by simp⟩
  | succ fuel ih =>
    rcases lt_or_le expiresAt r.now with hexp | hle
    · rw [pollLoop_succ_some w interval expiresAt fuel r r _
        (pollIteration_expired w interval expiresAt r hexp)]
      exact ⟨[], by simp, by simp⟩
    · have hrun := pollIteration_run w interval expiresAt r hle
      have hissue := sleepUntil_le r.now interval
      rcases hit : pollIteration w interval expiresAt r with ⟨r1, _ | res⟩
      · rw [hit] at hrun
        simp only at hrun
        subst hrun
        rw [pollLoop_succ_none w interval expiresAt fuel r _ hit]
        obtain ⟨added, h1, h3⟩ := ih (pollOnce w interval r)
        refine ⟨sleepUntil r.now interval :: added, ?_, ?_⟩
        · rw [h1]; simp [pollOnce]
        · intro t ht
          rcases List.mem_cons.mp ht with rfl | ht
          · omega
          · exact h3 t ht
      · rw [hit] at hrun
        simp only at hrun
        subst hrun
        rw [pollLoop_succ_some w interval expiresAt fuel r _ res hit]
        refine ⟨[sleepUntil r.now interval], by simp [pollOnce], ?_⟩
        intro t ht
        simp only [List.mem_singleton] at ht
        omega

/-- A token returned by the loop is the decoding of the body of the 200 reply to
the last request issued. -/
theorem pollLoop_ok (w : World) (interval expiresAt : Int) (fuel : Nat) (r r1 : Run)
    (tok : TokenResponse)
    (h : pollLoop w interval expiresAt fuel r = (r1, some (.ok tok))) :
    r.tokenRequests.length < r1.tokenRequests.length ∧
    ∃ body, w.tokenEndpoint (r1.tokenRequests.length - 1) = .ok ⟨200, .ok body⟩ ∧
      w.unmarshalToken body = .ok tok := by
  induction fuel generalizing r with
  | zero => simp [pollLoop] at h
  | succ fuel ih =>
    rcases hit : pollIteration w interval expiresAt r with ⟨r2, _ | res⟩
    · rw [pollLoop_succ_none w interval expiresAt fuel r _ hit] at h
      obtain ⟨hlen, hbody⟩ := ih r2 h
      refine ⟨?_, hbody⟩
      rcases lt_or_le expiresAt r.now with hexp | hle
      · rw [pollIteration_expired w interval expiresAt r hexp] at hit
        simp at hit
      · have hrun := pollIteration_run w interval expiresAt r hle
        rw [hit] at hrun
        simp only at hrun
        subst hrun
        simp only [pollOnce_length] at hlen
        omega
    · rw [pollLoop_succ_some w interval expiresAt fuel r _ res hit] at h
      simp only [Prod.mk.injEq, Option.some.injEq] at h
      obtain ⟨h1, h2⟩ := h
      subst h1 h2
      obtain ⟨hr, body, hb, ht⟩ := pollIteration_ok w interval expiresAt r r2 tok hit
      subst hr
      refine ⟨by simp, body, ?_, ht⟩
      simpa using hb

theorem sampleWorld_pending (deviceStatus : Int) (session : DeviceFlowResponse) {n k : Nat}
    (final : Int) (hk : k < n) : Pending (sampleWorld deviceStatus session n final) k :=
  ⟨⟨400, .ok "authorization_pending"⟩, by simp [sampleWorld, hk], rfl⟩

/-- The run up to and including the request that follows `n` pending replies. -/
theorem pollLoop_after_pending (w : World) (interval expiresAt : Int) (fuel n : Nat) (r : Run)
    (res : Except AuthError TokenResponse)
    (hnow : ∀ j, j ≤ n → (pollTimes w interval j r).now ≤ expiresAt)
    (hp : ∀ j, j < n → Pending w (r.tokenRequests.length + j))
    (hit : pollIteration w interval expiresAt (pollTimes w interval n r)
      = (pollOnce w interval (pollTimes w interval n r), some res))
    (hfuel : n < fuel) :
    pollLoop w interval expiresAt fuel r
      = (pollOnce w interval (pollTimes w interval n r), some res) := by
  have h1 : pollLoop w interval expiresAt (0 + 1 + n) r
      = (pollOnce w interval (pollTimes w interval n r), some res) := by
    rw [pollLoop_pending_run w interval expiresAt (0 + 1) n r
      (fun j hj => hnow j (Nat.le_of_lt hj)) hp]
    exact pollLoop_succ_some w interval expiresAt 0 _ _ res hit
  have hle : 0 + 1 + n ≤ fuel := by omega
  rw [pollLoop_fuel_le w interval expiresAt r hle (by rw [h1]; simp), h1]

/-- The run of `pollForToken` from a fresh trace when the first `n` polls are
answered 400, the requested pauses and the requests up to the next expiry check
fit the session lifetime, and the pass that follows returns `res`. -/
theorem pollForToken_after_pending (ctx : Context) (w : World) (s : DeviceFlowResponse)
    (n : Nat) (t0 : Int) (out : List String) (fuel : Nat)
    (res : Except AuthError TokenResponse)
    (hpending : ∀ k, k < n → Pending w k)
    (hlive : (n : Int) * requestedPause (secondsToDuration s.Interval)
        + ∑ k in Finset.range n, (w.tokenLatency k : Int) ≤ secondsToDuration s.ExpiresIn)
    (hit : ∀ r : Run, r.tokenRequests.length = n →
      r.now ≤ t0 + secondsToDuration s.ExpiresIn →
      pollIteration w (secondsToDuration s.Interval) (t0 + secondsToDuration s.ExpiresIn) r
        = (pollOnce w (secondsToDuration s.Interval) r, some res))
    (hfuel : n < fuel) :
    (pollForToken ctx w s fuel ⟨t0, [], out⟩).2 = some res ∧
    (pollForToken ctx w s fuel ⟨t0, [], out⟩).1.tokenRequests.length = n + 1 := by
  have hnow : ∀ j, j ≤ n → (pollTimes w (secondsToDuration s.Interval) j ⟨t0, [], out⟩).now
      ≤ t0 + secondsToDuration s.ExpiresIn := by
    intro j hj
    have h1 := pollTimes_now_le w (secondsToDuration s.Interval) j ⟨t0, [], out⟩
    have h2 := pauses_mono w (secondsToDuration s.Interval) 0 hj
    simp only [List.length_nil, Nat.zero_add] at h1 h2
    linarith
  have hrun := pollLoop_after_pending w (secondsToDuration s.Interval)
    (t0 + secondsToDuration s.ExpiresIn) fuel n ⟨t0, [], out⟩ res hnow
    (by simpa using hpending) (hit _ (by simp) (hnow n (le_refl n))) hfuel
  simp only [pollForToken]
  rw [hrun]
  simp

/-- C3: if the token endpoint answers 400 to the first N polls and then a
status other than 200 and 400, `pollForToken` returns the error carrying that
status, returns no token, and the trace holds exactly N+1 token requests
whatever fuel is left: no request follows that reply. -/
theorem pollForToken_unexpected_status (ctx : Context) (w : World) (s : DeviceFlowResponse)
    (N : Nat) (resp : Response) (t0 : Int) (out : List String) (fuel : Nat)
    (hpending : ∀ k, k < N → Pending w k)
    (hreply : w.tokenEndpoint N = .ok resp)
    (h200 : resp.StatusCode ≠ 200) (h400 : resp.StatusCode ≠ 400)
    (hlive : (N : Int) * requestedPause (secondsToDuration s.Interval)
        + ∑ k in Finset.range N, (w.tokenLatency k : Int) ≤ secondsToDuration s.ExpiresIn)
    (hfuel : N < fuel) :
    (pollForToken ctx w s fuel ⟨t0, [], out⟩).2
      = some (.error (.tokenStatus resp.StatusCode)) ∧
    (pollForToken ctx w s fuel ⟨t0, [], out⟩).1.tokenRequests.length = N + 1 :=
  pollForToken_after_pending ctx w s N t0 out fuel (.error (.tokenStatus resp.StatusCode))
    hpending hlive
    (fun r hlen hnow =>
      pollIteration_status w _ _ r hnow resp (by rw [hlen]; exact hreply) h200 h400)
    hfuel

theorem pollForToken_unexpected_status_witness :
    (pollForToken ⟨none⟩ (sampleWorld 200 (sampleSession 5 900) 0 500) (sampleSession 5 900) 7
        ⟨0, [], []⟩).2 = some (.error (.tokenStatus 500)) ∧
    (pollForToken ⟨none⟩ (sampleWorld 200 (sampleSession 5 900) 0 500) (sampleSession 5 900) 7
        ⟨0, [], []⟩).1.tokenRequests.length = 0 + 1 :=
  pollForToken_unexpected_status ⟨none⟩ (sampleWorld 200 (sampleSession 5 900) 0 500)
    (sampleSession 5 900) 0 ⟨500, .ok "token-body"⟩ 0 [] 7
    (fun _ hk => sampleWorld_pending 200 (sampleSession 5 900) 500 hk)
    rfl (by decide) (by decide) (by decide) (by decide)

/-- C4: when the device-code endpoint answers a status other than 200,
`Authenticate` returns the empty string with the error carrying that status,
whatever the fuel, and the run holds no token request beyond those it started
with (none for a fresh run): the poller is not entered. -/
theorem Authenticate_device_status_error (ctx : Context) (w : World) (fuel : Nat) (r : Run)
    (resp : Response) (hreply : w.deviceEndpoint = .ok resp)
    (hstatus : resp.StatusCode ≠ 200) :
    (Authenticate ctx w fuel r).2 = some ("", some (.deviceCodeStatus resp.StatusCode)) ∧
    (Authenticate ctx w fuel r).1.tokenRequests = r.tokenRequests ∧
    (Authenticate ctx w fuel r).1.output = r.output := by
  simp [Authenticate, requestDeviceFlow, hreply, hstatus]

theorem Authenticate_device_status_error_witness :
    (Authenticate ⟨none⟩ (sampleWorld 503 (sampleSession 5 900) 0 200) 9 (Run.start 0)).2
      = some ("", some (.deviceCodeStatus 503)) ∧
    (Authenticate ⟨none⟩ (sampleWorld 503 (sampleSession 5 900) 0 200) 9
      (Run.start 0)).1.tokenRequests = [] ∧
    (Authenticate ⟨none⟩ (sampleWorld 503 (sampleSession 5 900) 0 200) 9
      (Run.start 0)).1.output = [] :=
  Authenticate_device_status_error ⟨none⟩ (sampleWorld 503 (sampleSession 5 900) 0 200) 9
    (Run.start 0) ⟨503, .ok "device-body"⟩ rfl (by decide)

theorem requestDeviceFlow_run (ctx : Context) (w : World) (r : Run) :
    (requestDeviceFlow ctx w r).1 = { r with now := r.now + w.deviceLatency } := by
  unfold requestDeviceFlow
  simp only
  split
  · rfl
  · split
    · rfl
    · split
      · rfl
      · split <;> rfl

theorem requestDeviceFlow_ok (ctx : Context) (w : World) (r : Run) (body : String)
    (s : DeviceFlowResponse) (hreply : w.deviceEndpoint = .ok ⟨200, .ok body⟩)
    (hdecode : w.unmarshalDeviceFlow body = .ok s) :
    requestDeviceFlow ctx w r = ({ r with now := r.now + w.deviceLatency }, .ok s) := by
  simp [requestDeviceFlow, hreply, hdecode]

/-- A successful `Authenticate` has a successful device-flow request behind it
and returns the access token of the token record returned by `pollForToken`. -/
theorem Authenticate_ok_inv (ctx : Context) (w : World) (fuel : Nat) (r r1 : Run)
    (token : String) (h : Authenticate ctx w fuel r = (r1, some (token, none))) :
    ∃ (s : DeviceFlowResponse) (tokenResp : TokenResponse),
      pollForToken ctx w s fuel
        { now := r.now + w.deviceLatency, tokenRequests := r.tokenRequests,
          output := r.output ++ [signInMessage s] } = (r1, some (.ok tokenResp)) ∧
      token = tokenResp.AccessToken := by
  have hrun := requestDeviceFlow_run ctx w r
  unfold Authenticate at h
  split at h
  · simp at h
  · rename_i r0 s hdev
    rw [hdev] at hrun
    simp only at hrun h
    subst hrun
    split at h
    · simp at h
    · simp at h
    · rename_i r3 tokenResp hpoll
      simp only [Prod.mk.injEq, Option.some.injEq, and_true] at h
      obtain ⟨h1, h2⟩ := h
      subst h1
      exact ⟨s, tokenResp, hpoll, h2.symm⟩

/-- C1: the string returned by a successful `Authenticate` is the `AccessToken`
field of the record that `json.Unmarshal` decodes from the body of the 200
reply to the last token request of the run, and the error is nil.  First part:
every run that returns a nil error is of this kind.  Second part: a run whose
device-code request is answered 200 with a decodable body, whose first N polls
are answered 400 and whose next poll is answered 200 with a decodable body,
within the session lifetime, does return that access token with a nil error. -/
theorem Authenticate_returns_access_token (ctx : Context) (w : World) :
    (∀ (fuel : Nat) (r r1 : Run) (token : String),
      Authenticate ctx w fuel r = (r1, some (token, none)) →
      r.tokenRequests.length < r1.tokenRequests.length ∧
      ∃ (body : String) (tokenResp : TokenResponse),
        w.tokenEndpoint (r1.tokenRequests.length - 1) = .ok ⟨200, .ok body⟩ ∧
        w.unmarshalToken body = .ok tokenResp ∧
        token = tokenResp.AccessToken) ∧
    (∀ (N : Nat) (deviceBody : String) (s : DeviceFlowResponse) (body : String)
      (tokenResp : TokenResponse) (t0 : Int) (fuel : Nat),
      w.deviceEndpoint = .ok ⟨200, .ok deviceBody⟩ →
      w.unmarshalDeviceFlow deviceBody = .ok s →
      (∀ k, k < N → Pending w k) →
      w.tokenEndpoint N = .ok ⟨200, .ok body⟩ →
      w.unmarshalToken body = .ok tokenResp →
      (N : Int) * requestedPause (secondsToDuration s.Interval)
        + ∑ k in Finset.range N, (w.tokenLatency k : Int) ≤ secondsToDuration s.ExpiresIn →
      N < fuel →
      (Authenticate ctx w fuel (Run.start t0)).2 = some (tokenResp.AccessToken, none)) := by
  constructor
  · intro fuel r r1 token h
    obtain ⟨s, tokenResp, hpoll, htoken⟩ := Authenticate_ok_inv ctx w fuel r r1 token h
    obtain ⟨hlt, body, hb, hd⟩ := pollLoop_ok w _ _ fuel _ r1 tokenResp hpoll
    exact ⟨hlt, body, tokenResp, hb, hd, htoken⟩
  · intro N deviceBody s body tokenResp t0 fuel hdev hdec hpending hfinal hdecode hlive hfuel
    have hpoll := (pollForToken_after_pending ctx w s N (t0 + w.deviceLatency)
      [signInMessage s] fuel (.ok tokenResp) hpending hlive
      (fun r hlen hnow =>
        pollIteration_token w _ _ r hnow body tokenResp (by rw [hlen]; exact hfinal) hdecode)
      hfuel).1
    simp only [Authenticate, requestDeviceFlow_ok ctx w _ deviceBody s hdev hdec, Run.start,
      List.nil_append]
    rcases hres : pollForToken ctx w s fuel ⟨t0 + w.deviceLatency, [], [signInMessage s]⟩
      with ⟨r3, _ | _ | tr⟩
    · rw [hres] at hpoll; simp at hpoll
    · rw [hres] at hpoll; simp at hpoll
    · rw [hres] at hpoll
      simp only [Option.some.injEq, Except.ok.injEq] at hpoll
      subst hpoll
      rfl

theorem Authenticate_returns_access_token_witness :
    ((Run.start 0).tokenRequests.length < [(5000000000 : Int), 10000000000].length ∧
      ∃ (body : String) (tokenResp : TokenResponse),
        (sampleWorld 200 (sampleSession 5 900) 1 200).tokenEndpoint
            ([(5000000000 : Int), 10000000000].length - 1) = .ok ⟨200, .ok body⟩ ∧
        (sampleWorld 200 (sampleSession 5 900) 1 200).unmarshalToken body = .ok tokenResp ∧
        "token-body" = tokenResp.AccessToken) ∧
    (Authenticate ⟨none⟩ (sampleWorld 200 (sampleSession 5 900) 1 200) 2 (Run.start 0)).2
        = some ((sampleToken "token-body").AccessToken, none) :=
  ⟨(Authenticate_returns_access_token ⟨none⟩ (sampleWorld 200 (sampleSession 5 900) 1 200)).1
      2 (Run.start 0)
      ⟨10000000000, [5000000000, 10000000000], [signInMessage (sampleSession 5 900)]⟩
      "token-body" rfl,
    (Authenticate_returns_access_token ⟨none⟩ (sampleWorld 200 (sampleSession 5 900) 1 200)).2
      1 "device-body" (sampleSession 5 900) "token-body" (sampleToken "token-body") 0 2
      rfl rfl (fun _ hk => sampleWorld_pending 200 (sampleSession 5 900) 200 hk)
      rfl rfl (by decide) (by decide)⟩

/-- A pass that starts at or before the expiry does not return the expiry error. -/
theorem pollIteration_not_expired (w : World) (interval expiresAt : Int) (r : Run)
    (h : r.now ≤ expiresAt) :
    (pollIteration w interval expiresAt r).2 ≠ some (.error .expired) := by
  have h1 : ¬ r.now > expiresAt := by omega
  simp only [pollIteration, h1, if_false]
  split
  · simp
  · split
    · split
      · simp
      · split <;> simp
    · split <;> simp

/-- C5 (as stated, refuted): in a run with a 5 s interval and a 10 s lifetime
whose first two polls are answered 400, the third pass of the loop starts at
the expiry instant exactly; it does not report expiry but sleeps, issues a
third request at 15 s and returns the token. -/
theorem expiry_check_at_expiry_instant_counterexample :
    (10000000000 : Int) ≥ 0 + secondsToDuration (sampleSession 5 10).ExpiresIn ∧
    pollIteration (sampleWorld 200 (sampleSession 5 10) 2 200)
        (secondsToDuration (sampleSession 5 10).Interval)
        (0 + secondsToDuration (sampleSession 5 10).ExpiresIn)
        ⟨10000000000, [5000000000, 10000000000], []⟩
      = (⟨15000000000, [5000000000, 10000000000, 15000000000], []⟩,
          some (.ok (sampleToken "token-body"))) ∧
    pollForToken ⟨none⟩ (sampleWorld 200 (sampleSession 5 10) 2 200) (sampleSession 5 10) 3
        (Run.start 0)
      = (⟨15000000000, [5000000000, 10000000000, 15000000000], []⟩,
          some (.ok (sampleToken "token-body"))) :=
  ⟨by decide, rfl, rfl⟩

/-- C5 (amended): a pass of the loop that starts strictly after the expiry
instant returns the expiry error and leaves the run untouched (no sleep, no
token request); a pass that starts at or before the expiry instant sleeps,
issues one token request at the instant the sleep ends and does not return the
expiry error. -/
theorem pollIteration_expiry_check (w : World) (interval expiresAt : Int) (r : Run) :
    (r.now > expiresAt →
      pollIteration w interval expiresAt r = (r, some (.error .expired))) ∧
    (r.now ≤ expiresAt →
      (pollIteration w interval expiresAt r).1.tokenRequests
          = r.tokenRequests ++ [sleepUntil r.now interval] ∧
      (pollIteration w interval expiresAt r).2 ≠ some (.error .expired)) := by
  refine ⟨pollIteration_expired w interval expiresAt r, fun h => ⟨?_, ?_⟩⟩
  · rw [pollIteration_run w interval expiresAt r h]; rfl
  · exact pollIteration_not_expired w interval expiresAt r h

theorem pollIteration_expiry_check_witness :
    pollIteration (sampleWorld 200 (sampleSession 5 10) 9 200) 5000000000 10000000000
        ⟨10000000001, [5000000000], []⟩
      = (⟨10000000001, [5000000000], []⟩, some (.error .expired)) ∧
    ((pollIteration (sampleWorld 200 (sampleSession 5 10) 9 200) 5000000000 10000000000
        ⟨10000000000, [5000000000], []⟩).1.tokenRequests
          = [5000000000] ++ [sleepUntil 10000000000 5000000000] ∧
      (pollIteration (sampleWorld 200 (sampleSession 5 10) 9 200) 5000000000 10000000000
        ⟨10000000000, [5000000000], []⟩).2 ≠ some (.error .expired)) :=
  ⟨(pollIteration_expiry_check (sampleWorld 200 (sampleSession 5 10) 9 200) 5000000000
      10000000000 ⟨10000000001, [5000000000], []⟩).1 (by decide),
   (pollIteration_expiry_check (sampleWorld 200 (sampleSession 5 10) 9 200) 5000000000
      10000000000 ⟨10000000000, [5000000000], []⟩).2 (by decide)⟩

/-- C6 (as stated, refuted): with a 5 s interval and a 3 s lifetime the first
expiry check passes at 0 s, the request is issued at 5 s, after the expiry
instant of 3 s, and its 200 reply is returned as the token. -/
theorem request_after_expiry_counterexample :
    pollForToken ⟨none⟩ (sampleWorld 200 (sampleSession 5 3) 0 200) (sampleSession 5 3) 1
        (Run.start 0)
      = (⟨5000000000, [5000000000], []⟩, some (.ok (sampleToken "token-body"))) ∧
    (Run.start 0).now + secondsToDuration (sampleSession 5 3).ExpiresIn < 5000000000 :=
  ⟨rfl, by decide⟩

/-- C6 (amended): every token request of a run of `pollForToken`, finished or
not, is issued no later than one requested pause (the duration passed to
`time.Sleep` when it is positive, nothing otherwise) after the session's expiry
instant; and a token is returned only as the decoding of the 200 reply to the
last request issued, whose issue instant obeys that bound.  Nothing is said of
the instant at which that reply arrives. -/
theorem pollForToken_requests_bounded (ctx : Context) (w : World) (s : DeviceFlowResponse)
    (fuel : Nat) (t0 : Int) (out : List String) :
    (∀ t, t ∈ (pollForToken ctx w s fuel ⟨t0, [], out⟩).1.tokenRequests →
      t ≤ t0 + secondsToDuration s.ExpiresIn
        + requestedPause (secondsToDuration s.Interval)) ∧
    (∀ tokenResp, (pollForToken ctx w s fuel ⟨t0, [], out⟩).2 = some (.ok tokenResp) →
      ∃ (t : Int) (body : String),
        (pollForToken ctx w s fuel ⟨t0, [], out⟩).1.tokenRequests.getLast? = some t ∧
        t ≤ t0 + secondsToDuration s.ExpiresIn
          + requestedPause (secondsToDuration s.Interval) ∧
        w.tokenEndpoint
            ((pollForToken ctx w s fuel ⟨t0, [], out⟩).1.tokenRequests.length - 1)
          = .ok ⟨200, .ok body⟩ ∧
        w.unmarshalToken body = .ok tokenResp) := by
  have hall : ∀ t, t ∈ (pollForToken ctx w s fuel ⟨t0, [], out⟩).1.tokenRequests →
      t ≤ t0 + secondsToDuration s.ExpiresIn
        + requestedPause (secondsToDuration s.Interval) := by
    intro t ht
    obtain ⟨added, h1, h3⟩ := pollLoop_trace w (secondsToDuration s.Interval)
      (t0 + secondsToDuration s.ExpiresIn) fuel ⟨t0, [], out⟩
    simp only [pollForToken] at ht
    rw [h1] at ht
    exact h3 t (by simpa using ht)
  refine ⟨hall, ?_⟩
  intro tokenResp hres
  rcases hrun : pollForToken ctx w s fuel ⟨t0, [], out⟩ with ⟨r1, res⟩
  rw [hrun] at hres hall
  simp only at hres hall ⊢
  subst hres
  obtain ⟨hlen, body, hb, hd⟩ := pollLoop_ok w _ _ fuel _ r1 tokenResp hrun
  have hne : r1.tokenRequests ≠ [] := by
    intro hnil
    rw [hnil] at hlen
    simp at hlen
  exact ⟨r1.tokenRequests.getLast hne, body, List.getLast?_eq_getLast _ hne,
    hall _ (List.getLast_mem hne), hb, hd⟩

theorem pollForToken_requests_bounded_witness :
    (5000000000 : Int) ≤ 0 + secondsToDuration (sampleSession 5 3).ExpiresIn
      + requestedPause (secondsToDuration (sampleSession 5 3).Interval) ∧
    ∃ (t : Int) (body : String),
      (pollForToken ⟨none⟩ (sampleWorld 200 (sampleSession 5 3) 0 200) (sampleSession 5 3) 1
        ⟨0, [], []⟩).1.tokenRequests.getLast? = some t ∧
      t ≤ 0 + secondsToDuration (sampleSession 5 3).ExpiresIn
        + requestedPause (secondsToDuration (sampleSession 5 3).Interval) ∧
      (sampleWorld 200 (sampleSession 5 3) 0 200).tokenEndpoint
          ((pollForToken ⟨none⟩ (sampleWorld 200 (sampleSession 5 3) 0 200)
            (sampleSession 5 3) 1 ⟨0, [], []⟩).1.tokenRequests.length - 1)
        = .ok ⟨200, .ok body⟩ ∧
      (sampleWorld 200 (sampleSession 5 3) 0 200).unmarshalToken body
        = .ok (sampleToken "token-body") :=
  ⟨(pollForToken_requests_bounded ⟨none⟩ (sampleWorld 200 (sampleSession 5 3) 0 200)
      (sampleSession 5 3) 1 0 []).1 5000000000 (by decide),
   (pollForToken_requests_bounded ⟨none⟩ (sampleWorld 200 (sampleSession 5 3) 0 200)
      (sampleSession 5 3) 1 0 []).2 (sampleToken "token-body") rfl⟩

theorem secondsToDuration_eq (n : Int) (h0 : 0 ≤ n) (h1 : n ≤ 9223372036) :
    secondsToDuration n = n * Second := by
  unfold secondsToDuration wrapInt64 Second
  omega

/-- When the expiry instant is not before the largest timer instant, every poll
is answered 400 and requests take no time, the clock never passes the expiry
and the loop does not return. -/
theorem pollLoop_never_expires (w : World) (interval expiresAt : Int)
    (hpending : ∀ k, Pending w k) (hinstant : ∀ k, w.tokenLatency k = 0)
    (hmax : maxWhen ≤ expiresAt) (fuel : Nat) (r : Run) (hnow : r.now ≤ maxWhen) :
    (pollLoop w interval expiresAt fuel r).2 = none := by
  induction fuel generalizing r with
  | zero => simp [pollLoop]
  | succ fuel ih =>
    rw [pollLoop_succ_none w interval expiresAt fuel r _
      (pollIteration_pending w interval expiresAt r (le_trans hnow hmax) (hpending _))]
    apply ih
    simp only [pollOnce, hinstant]
    have := sleepUntil_le_maxWhen r.now interval hnow
    simpa using this

/-- C7 (as stated, refuted): a poll interval of 4611686018 s, a lifetime of twice
that, every poll answered 400, requests that take no time, and a poller that
starts when the monotonic clock reads 1 s.  The expiry instant is past the
largest instant to which a timer can be set, so the second and all later sleeps
end at that instant, before the expiry: the loop polls again and again and
never returns the expiry error.  The same happens from a clock that reads
946684800 s, the origin of the fake clock of the Go package `testing/synctest`. -/
theorem clamped_sleep_never_expires_counterexample :
    0 < (sampleSession 4611686018 9223372036).Interval ∧
    secondsToDuration (sampleSession 4611686018 9223372036).ExpiresIn
      = 2 * ((sampleSession 4611686018 9223372036).Interval * Second) ∧
    (pollForToken ⟨none⟩ (alwaysPending (sampleSession 4611686018 9223372036))
        (sampleSession 4611686018 9223372036) 4 ⟨1000000000, [], []⟩)
      = (⟨9223372036854775807,
          [4611686019000000000, 9223372036854775807, 9223372036854775807,
            9223372036854775807], []⟩, none) ∧
    (∀ fuel : Nat,
      (pollForToken ⟨none⟩ (alwaysPending (sampleSession 4611686018 9223372036))
        (sampleSession 4611686018 9223372036) fuel ⟨1000000000, [], []⟩).2 = none) ∧
    (pollForToken ⟨none⟩ (alwaysPending (sampleSession 4611686018 9223372036))
        (sampleSession 4611686018 9223372036) 4 ⟨946684800000000000, [], []⟩)
      = (⟨9223372036854775807,
          [5558370818000000000, 9223372036854775807, 9223372036854775807,
            9223372036854775807], []⟩, none) ∧
    (∀ fuel : Nat,
      (pollForToken ⟨none⟩ (alwaysPending (sampleSession 4611686018 9223372036))
        (sampleSession 4611686018 9223372036) fuel ⟨946684800000000000, [], []⟩).2 = none) :=
  ⟨by decide, by decide, rfl,
    fun fuel => pollLoop_never_expires _ _ _
      (fun _ => ⟨⟨400, .ok "authorization_pending"⟩, rfl, rfl⟩) (fun _ => rfl)
      (by decide) fuel _ (by decide),
    rfl,
    fun fuel => pollLoop_never_expires _ _ _
      (fun _ => ⟨⟨400, .ok "authorization_pending"⟩, rfl, rfl⟩) (fun _ => rfl)
      (by decide) fuel _ (by decide)⟩

/-- C7 (amended): for a positive poll interval I, a session whose expiry instant
is 2·I after the start of the poller and lies before the largest instant to
which the runtime can set a timer, a token endpoint that answers 400 to every
poll and requests that take no time, `pollForToken` returns the expiry error
(with four units of fuel or more), and the instant at which it returns is after
the expiry instant by no more than I. -/
theorem pollForToken_always_pending_expires (ctx : Context) (w : World)
    (s : DeviceFlowResponse) (t0 : Int) (out : List String) (fuel : Nat)
    (hpos : 0 < s.Interval)
    (hexpiry : secondsToDuration s.ExpiresIn = 2 * (s.Interval * Second))
    (hreach : t0 + secondsToDuration s.ExpiresIn < maxWhen)
    (hpending : ∀ k, Pending w k)
    (hinstant : ∀ k, w.tokenLatency k = 0)
    (hfuel : 4 ≤ fuel) :
    (pollForToken ctx w s fuel ⟨t0, [], out⟩).2 = some (.error .expired) ∧
    t0 + secondsToDuration s.ExpiresIn < (pollForToken ctx w s fuel ⟨t0, [], out⟩).1.now ∧
    (pollForToken ctx w s fuel ⟨t0, [], out⟩).1.now
      ≤ t0 + secondsToDuration s.ExpiresIn + s.Interval * Second := by
  have hbound : secondsToDuration s.ExpiresIn < 9223372036854775808 := by
    unfold secondsToDuration wrapInt64; omega
  have hfit : s.Interval ≤ 9223372036 := by
    rw [hexpiry] at hbound; unfold Second at hbound; omega
  have hI : secondsToDuration s.Interval = s.Interval * Second :=
    secondsToDuration_eq s.Interval (le_of_lt hpos) hfit
  have hIpos : 0 < s.Interval * Second := by unfold Second; omega
  rw [hexpiry] at hreach
  generalize hd : s.Interval * Second = d at hI hIpos hreach hexpiry
  have h1 : (pollTimes w d 1 ⟨t0, [], out⟩).now = t0 + d := by
    simp only [pollTimes, pollOnce, hinstant]
    rw [sleepUntil_eq hIpos (by omega)]
    simp
  have h2 : (pollTimes w d 2 ⟨t0, [], out⟩).now = t0 + 2 * d := by
    rw [pollTimes_succ]
    simp only [pollOnce, hinstant, h1]
    rw [sleepUntil_eq hIpos (by omega)]
    simp only [Nat.cast_zero, add_zero]
    ring
  have h3lo : t0 + 2 * d < (pollTimes w d 3 ⟨t0, [], out⟩).now := by
    rw [pollTimes_succ]
    simp only [pollOnce, hinstant, h2]
    have := lt_sleepUntil (t0 + 2 * d) d hIpos hreach
    simpa using this
  have h3hi : (pollTimes w d 3 ⟨t0, [], out⟩).now ≤ t0 + 2 * d + d := by
    rw [pollTimes_succ]
    simp only [pollOnce, hinstant, h2]
    have := sleepUntil_le (t0 + 2 * d) d
    rw [requestedPause_of_pos hIpos] at this
    simpa using this
  have h4 : pollLoop w d (t0 + 2 * d) (1 + 3) ⟨t0, [], out⟩
      = (pollTimes w d 3 ⟨t0, [], out⟩, some (.error .expired)) := by
    rw [pollLoop_pending_run w _ _ 1 3 ⟨t0, [], out⟩ ?_ (fun j _ => hpending _)]
    · exact pollLoop_succ_some _ _ _ _ _ _ _ (pollIteration_expired _ _ _ _ h3lo)
    · intro j hj
      have hj3 : j = 0 ∨ j = 1 ∨ j = 2 := by omega
      rcases hj3 with rfl | rfl | rfl
      · simp only [pollTimes]; omega
      · rw [h1]; omega
      · rw [h2]
  have hrun : pollForToken ctx w s fuel ⟨t0, [], out⟩
      = (pollTimes w d 3 ⟨t0, [], out⟩, some (.error .expired)) := by
    simp only [pollForToken, hI, hexpiry]
    have hle : 1 + 3 ≤ fuel := by omega
    rw [pollLoop_fuel_le w _ _ ⟨t0, [], out⟩ hle (by rw [h4]; simp), h4]
  rw [hrun, hexpiry]
  exact ⟨rfl, h3lo, h3hi⟩

theorem pollForToken_always_pending_expires_witness :
    (pollForToken ⟨none⟩ (alwaysPending (sampleSession 5 10)) (sampleSession 5 10) 4
        ⟨0, [], []⟩).2 = some (.error .expired) ∧
    0 + secondsToDuration (sampleSession 5 10).ExpiresIn
      < (pollForToken ⟨none⟩ (alwaysPending (sampleSession 5 10)) (sampleSession 5 10) 4
          ⟨0, [], []⟩).1.now ∧
    (pollForToken ⟨none⟩ (alwaysPending (sampleSession 5 10)) (sampleSession 5 10) 4
        ⟨0, [], []⟩).1.now
      ≤ 0 + secondsToDuration (sampleSession 5 10).ExpiresIn
        + (sampleSession 5 10).Interval * Second :=
  pollForToken_always_pending_expires ⟨none⟩ (alwaysPending (sampleSession 5 10))
    (sampleSession 5 10) 0 [] 4 (by decide) (by decide) (by decide)
    (fun _ => ⟨⟨400, .ok "authorization_pending"⟩, rfl, rfl⟩) (fun _ => rfl) (by decide)

/-- C9 (code defect): a session whose poll interval is 18446744074 s.  The
product `time.Duration(Interval) * time.Second` is not checked for overflow and
wraps around to 290448384 ns, so the first request is issued 0.29 s after the
start and the next one 0.29 s later, each far less than one poll interval
after the instant before it. -/
theorem overflowing_interval_short_sleep :
    secondsToDuration (sampleSession 18446744074 1).Interval = 290448384 ∧
    (pollForToken ⟨none⟩ (sampleWorld 200 (sampleSession 18446744074 1) 9 200)
        (sampleSession 18446744074 1) 2 (Run.start 0)).1.tokenRequests
      = [290448384, 580896768] ∧
    ¬ ((Run.start 0).now + (sampleSession 18446744074 1).Interval * Second ≤ 290448384) ∧
    ¬ ((290448384 : Int) + (sampleSession 18446744074 1).Interval * Second ≤ 580896768) :=
  ⟨by decide, rfl, by decide, by decide⟩

/-- C10 (code defect): a session with a poll interval of 18446744074 s and a
lifetime of 1 s.  The unchecked product `time.Duration(Interval) * time.Second`
wraps around to 290448384 ns; four token requests are issued before the loop
reports expiry, where floor(1 / 18446744074) + 1 = 1 is the bound. -/
theorem overflowing_interval_request_count :
    1 ≤ (sampleSession 18446744074 1).Interval ∧
    0 ≤ (sampleSession 18446744074 1).ExpiresIn ∧
    pollForToken ⟨none⟩ (alwaysPending (sampleSession 18446744074 1))
        (sampleSession 18446744074 1) 5 (Run.start 0)
      = (⟨1161793536, [290448384, 580896768, 871345152, 1161793536], []⟩,
          some (.error .expired)) ∧
    ¬ ([(290448384 : Int), 580896768, 871345152, 1161793536].length
        ≤ (sampleSession 18446744074 1).ExpiresIn.toNat
            / (sampleSession 18446744074 1).Interval.toNat + 1) :=
  ⟨by decide, by decide, rfl, by decide⟩

/-- C8 (code defect): `Authenticate` and the functions it calls never consult the
context.  With the one-minute deadline that the `main` function installs, a
25 s interval, a 100 s lifetime and a token endpoint that keeps answering 400,
the deadline elapses during the sleep between the second and the third poll;
the run goes on to issue requests at 75 s, 100 s and 125 s and returns the
expiry error.  The outcome is the same for every context. -/
theorem Authenticate_ignores_deadline :
    Authenticate ⟨some 60000000000⟩ (alwaysPending (sampleSession 25 100)) 6 (Run.start 0)
      = (⟨125000000000,
          [25000000000, 50000000000, 75000000000, 100000000000, 125000000000],
          [signInMessage (sampleSession 25 100)]⟩,
          some ("", some .expired)) ∧
    ∀ (ctx1 ctx2 : Context) (w : World) (fuel : Nat) (r : Run),
      Authenticate ctx1 w fuel r = Authenticate ctx2 w fuel r :=
  ⟨rfl, fun _ _ _ _ _ => rfl⟩

end MeetingsAsCode
